import Mathlib

/-!
Shallow embedding of the naf_calc fuel-strategy core (src/strat.rs,
src/history.rs, src/ircalc.rs).  Machine floats (f32/f64) are modelled as
rationals, Rust Duration (the payload of TimeSpan) as a count of
nanoseconds, i32/i64/isize counters as integers.  The lazily generated
infinite lap iterator of StratRequest::stints is modelled by a fueled
recursion returning none when the fuel bound is exhausted before the
race-end test fires, so a `some` result is exactly a terminating run of
the Rust loop.
-/

namespace NafCalc

/-- Rust std Duration wrapped by strat.rs TimeSpan: total nanoseconds. -/
structure TimeSpan where
  ns : ℕ
deriving DecidableEq, Repr

/-- strat.rs Rate: per-lap fuel (f32) and lap time. -/
structure Rate where
  fuel : ℚ
  time : TimeSpan
deriving DecidableEq, Repr

/-- strat.rs Rate::default. -/
def Rate.default : Rate := { fuel := 0, time := ⟨0⟩ }

/-- strat.rs Lap: condition is the LapState bitflags value (YELLOW = 0x01,
PITTED = 0x02, PACE_LAP = 0x04, ONE_TO_GREEN = 0x08, TWO_TO_GREEN = 0x10). -/
structure Lap where
  fuel_used : ℚ
  fuel_left : ℚ
  time : TimeSpan
  condition : ℕ
deriving DecidableEq, Repr

/-- Rate + &Lap (impl Add<&Lap> for Rate): sum the components. -/
def Rate.addLap (r : Rate) (l : Lap) : Rate :=
  { fuel := r.fuel + l.fuel_used, time := ⟨r.time.ns + l.time.ns⟩ }

/-- strat.rs Pitstop; both fields are i32 lap counts from now.  The Rust
field names are open/close (open is a Lean keyword). -/
structure Pitstop where
  openLap : ℤ
  closeLap : ℤ
deriving DecidableEq, Repr

/-- strat.rs Stint. -/
structure Stint where
  laps : ℤ
  fuel : ℚ
  time : TimeSpan
deriving DecidableEq, Repr

/-- Stint::new. -/
def Stint.new : Stint := { laps := 0, fuel := 0, time := ⟨0⟩ }

/-- Stint::add(&mut self, lap: &Rate). -/
def Stint.add (s : Stint) (lap : Rate) : Stint :=
  { laps := s.laps + 1, fuel := s.fuel + lap.fuel, time := ⟨s.time.ns + lap.time.ns⟩ }

/-- strat.rs EndsWith. -/
inductive EndsWith where
  | Laps (l : ℤ)
  | Time (d : TimeSpan)
  | LapsOrTime (l : ℤ) (d : TimeSpan)
deriving DecidableEq, Repr

/-- strat.rs StratRequest. -/
structure StratRequest where
  fuel_left : ℚ
  tank_size : ℚ
  max_fuel_save : ℚ
  min_fuel : ℚ
  yellow_togo : ℤ
  ends : EndsWith
  green : Rate
  yellow : Rate
deriving DecidableEq, Repr

/-- strat.rs Strategy. -/
structure Strategy where
  stints : List Stint
  stops : List Pitstop
  fuel_to_save : ℚ
  green : Rate
  yellow : Rate
deriving DecidableEq, Repr

/-- Rust `i32 as usize` on the yellow_togo counter (two's complement cast
to a 64-bit unsigned): the number of yellow laps fed into the iterator by
`iter::repeat(self.yellow).take(self.yellow_togo as usize)`. -/
def yellowCount (y : ℤ) : ℕ := (y % (2 ^ 64)).toNat

/-- The i-th lap rate of the virtually infinite planned lap iterator
`yellow.chain(iter::repeat(self.green))`. -/
def rateAt (r : StratRequest) (i : ℕ) : Rate :=
  if i < yellowCount r.yellow_togo then r.yellow else r.green

/-- The take_while predicate body of StratRequest::stints, evaluated on the
laps/time accumulated BEFORE the candidate lap (`laps < l`, `tm <= d`,
`laps < l && tm <= d`). -/
def contTest (e : EndsWith) (laps : ℤ) (tm : ℕ) : Bool :=
  match e with
  | .Laps l => laps < l
  | .Time d => tm ≤ d.ns
  | .LapsOrTime l d => laps < l && tm ≤ d.ns

/-- Fueled unfolding of the take_while-limited lap iterator.  `k` is both
the iterator position and the `laps` counter (they advance together in the
Rust closure), `tm` the accumulated time.  Returns none iff the fuel bound
`fb` runs out before the take_while predicate fails. -/
def lapsGo (r : StratRequest) : ℕ → ℕ → ℕ → Option (List Rate)
  | 0, _, _ => none
  | fb + 1, k, tm =>
    let lap := rateAt r k
    if contTest r.ends (k : ℤ) tm then
      (lapsGo r fb (k + 1) (tm + lap.time.ns)).map (fun l => lap :: l)
    else
      some []

/-- The finite list of planned lap rates consumed by StratRequest::stints,
under fuel bound `fb`. -/
def lapsListF (r : StratRequest) (fb : ℕ) : Option (List Rate) :=
  lapsGo r fb 0 0

/-- The stint-building loop body of StratRequest::stints: walk the planned
laps carrying the fuel level `f` and the currently accumulating stint. -/
def stintsGo (r : StratRequest) : List Rate → ℚ → Stint → List Stint
  | [], _, cur => if 0 < cur.laps then [cur] else []
  | lap :: rest, f, cur =>
    if f < lap.fuel + r.min_fuel then
      cur :: stintsGo r rest (r.tank_size - lap.fuel) (Stint.new.add lap)
    else
      stintsGo r rest (f - lap.fuel) (cur.add lap)

/-- StratRequest::stints under fuel bound `fb`. -/
def stintsF (r : StratRequest) (fb : ℕ) : Option (List Stint) :=
  (lapsListF r fb).map (fun laps => stintsGo r laps r.fuel_left Stint.new)

/-- stints.last() of a nonempty stint list (the Rust unwrap is guarded by
the is_empty check in compute). -/
def stintLast (stints : List Stint) : Stint := stints.getLastD Stint.new

/-- floor(tank_size / green.fuel) as computed by StratRequest::stops
(`round::floor(..., 0) as i32`). -/
def fullStintLen (r : StratRequest) : ℤ := ⌊r.tank_size / r.green.fuel⌋

/-- The loop of StratRequest::stops over all but the last stint, carrying
lap_open, lap_close and ext. -/
def stopsGo : List Stint → ℤ → ℤ → ℤ → List Pitstop
  | [], _, _, _ => []
  | st :: rest, lapOpen, lapClose, ext =>
    let wdw := min ext st.laps
    let o := lapOpen + (st.laps - wdw)
    let c := lapClose + st.laps
    ⟨o, c⟩ :: stopsGo rest o c (ext - wdw)

/-- StratRequest::stops. -/
def stops (r : StratRequest) (stints : List Stint) : List Pitstop :=
  stopsGo (stints.take (stints.length - 1)) 0 0 (fullStintLen r - (stintLast stints).laps)

/-- StratRequest::fuel_save. -/
def fuelSave (r : StratRequest) (stints : List Stint) : ℚ :=
  let total := (stints.map Stint.fuel).sum
  let maxSave := total * r.max_fuel_save
  let lastStintFuel := (stintLast stints).fuel
  if lastStintFuel < maxSave then lastStintFuel else 0

/-- StratRequest::compute under fuel bound `fb`: some none models the Rust
None (empty stint list), some (some s) models Some(s). -/
def computeF (r : StratRequest) (fb : ℕ) : Option (Option Strategy) :=
  (stintsF r fb).map (fun stints =>
    if stints = [] then none
    else some { stints := stints, stops := stops r stints,
                fuel_to_save := fuelSave r stints,
                green := r.green, yellow := r.yellow })

/-! ### history.rs: the lap-rate estimator -/

/-- history.rs RaceSession. -/
structure RaceSession where
  fuel_tank_size : ℚ
  max_fuel_save : ℚ
  min_fuel : ℚ
  track_id : ℤ
  track_name : String
  layout_name : String
  car_id : ℤ
  car : String
deriving DecidableEq, Repr

/-- history.rs History: the recorded laps of this session plus the
historical defaults loaded from the database at construction (the db
handle itself is I/O and not part of the estimator's arithmetic). -/
structure History where
  cfg : RaceSession
  laps : List Lap
  def_green : Option Rate
  def_yellow : Option Rate
deriving DecidableEq, Repr

/-- LapState::is_empty on the condition bitmask. -/
def lapStateIsEmpty (c : ℕ) : Bool := c = 0

/-- LapState::intersects(LapState::YELLOW) on the condition bitmask
(YELLOW = 0x01). -/
def lapIsYellow (l : Lap) : Bool := (l.condition &&& 1) != 0

/-- Rust std Duration / u32 (used for averaging lap times): split the
duration into whole seconds and nanoseconds, divide each part and fold the
second-remainder into the nanoseconds, all with truncation. -/
def tsDiv (t : TimeSpan) (c : ℕ) : TimeSpan :=
  let s := t.ns / 1000000000
  let n := t.ns % 1000000000
  ⟨s / c * 1000000000 + (n / c + s % c * 1000000000 / c)⟩

/-- Rust std Duration * u32. -/
def tsMul (t : TimeSpan) (c : ℕ) : TimeSpan := ⟨t.ns * c⟩

/-- The last five recorded laps with empty condition, most recent first
(`laps.iter().rev().filter(condition.is_empty()).take(5)`). -/
def greensOf (h : History) : List Lap :=
  (h.laps.reverse.filter (fun l => lapStateIsEmpty l.condition)).take 5

/-- The (count, summed rate) fold of History::recent_green. -/
def greenFold (h : History) : ℕ × Rate :=
  (greensOf h).foldl (fun acc lap => (acc.1 + 1, Rate.addLap acc.2 lap)) (0, Rate.default)

/-- History::recent_green. -/
def recentGreen (h : History) : Option Rate :=
  let p := greenFold h
  if h.def_green.isSome ∧ p.1 < 2 then h.def_green
  else if 1 ≤ p.1 then some ⟨p.2.fuel / (p.1 : ℚ), tsDiv p.2.time p.1⟩
  else none

/-- The (yellow_start flag, summed rate, count) fold of
History::recent_yellow, walking laps in chronological order and discarding
the first lap of each yellow run. -/
def yellowFold (h : History) : Bool × Rate × ℕ :=
  h.laps.foldl
    (fun acc lap =>
      if lapIsYellow lap then
        if acc.1 then (true, Rate.addLap acc.2.1 lap, acc.2.2 + 1)
        else (true, acc.2.1, acc.2.2)
      else (false, acc.2.1, acc.2.2))
    (false, Rate.default, 0)

/-- History::recent_yellow. -/
def recentYellow (h : History) : Option Rate :=
  let t := yellowFold h
  if t.2.2 = 0 then h.def_yellow
  else some ⟨t.2.1.fuel / (t.2.2 : ℚ), tsDiv t.2.1.time t.2.2⟩

/-- The trailing-yellow count of History::strat:
`laps.iter().rev().take_while(condition.intersects(YELLOW)).count()`. -/
def trailingYellow (laps : List Lap) : ℕ :=
  (laps.reverse.takeWhile lapIsYellow).length

/-- The StratRequest built by History::strat (the request-building part of
the function; strat then calls compute on it).  none iff no green rate is
available. -/
def stratRequestOf (h : History) (fuel_left : ℚ) (ends : EndsWith) : Option StratRequest :=
  (recentGreen h).map (fun green =>
    { fuel_left := fuel_left
      tank_size := h.cfg.fuel_tank_size
      max_fuel_save := h.cfg.max_fuel_save
      min_fuel := h.cfg.min_fuel
      yellow_togo :=
        if 0 < (trailingYellow h.laps : ℤ) then max 0 (3 - (trailingYellow h.laps : ℤ))
        else 0
      ends := ends
      green := green
      yellow := (recentYellow h).getD ⟨green.fuel / 3, tsMul green.time 4⟩ })

/-- History::strat under planner fuel bound `fb`. -/
def stratF (h : History) (fuel_left : ℚ) (ends : EndsWith) (fb : ℕ) :
    Option (Option Strategy) :=
  match stratRequestOf h fuel_left ends with
  | none => some none
  | some r => computeF r fb

/-- The number `n` is the length of an all-yellow suffix of `laps` (used to
state what "the longest suffix of laps whose condition contains YELLOW"
means). -/
def allYellowSuffix (laps : List Lap) (n : ℕ) : Prop :=
  n ≤ laps.length ∧ ∀ lap ∈ laps.drop (laps.length - n), lapIsYellow lap = true

/-! ### strat.rs TimeSpan: Display formatting and FromStr parsing -/

/-- Rust `{:02}` formatting of an unsigned integer: pad with a leading zero
up to width two. -/
def pad2 (n : ℕ) : String := if n < 10 then "0" ++ toString n else toString n

/-- TimeSpan's Display implementation: `H:MM:SS` at or above one hour
(hours unpadded), `MM:SS` below. -/
def timespanFmt (t : TimeSpan) : String :=
  let s := t.ns / 1000000000
  if 3600 * 1000000000 ≤ t.ns then
    toString (s / 3600) ++ ":" ++ pad2 (s % 3600 / 60) ++ ":" ++ pad2 (s % 60)
  else
    pad2 (s / 60) ++ ":" ++ pad2 (s % 60)

/-- The whitespace class of the parsing regex (`\s`), on the characters
that can occur here. -/
def isWsChar (c : Char) : Bool :=
  c = ' ' || c = '\t' || c = '\n' || c = '\r' || c = '\x0b' || c = '\x0c'

/-- The `^\s*` and `\s*$` parts of the parsing regex: strip leading and
trailing whitespace. -/
def stripWs (cs : List Char) : List Char :=
  ((cs.dropWhile isWsChar).reverse.dropWhile isWsChar).reverse

/-- Numeric value of a decimal digit character. -/
def digitVal (c : Char) : ℕ := c.toNat - 48

/-- TimeSpan::from_str: the anchored regex
`^\s*(?:(\d{1,2}):)??(\d{2}):(\d{2})\s*$` admits exactly the shapes
`MM:SS`, `H:MM:SS` and `HH:MM:SS`; the matched groups are parsed as
decimal and combined into whole seconds. -/
def timespanFromChars (cs : List Char) : Option TimeSpan :=
  match stripWs cs with
  | [m1, m2, ':', s1, s2] =>
    if m1.isDigit && m2.isDigit && s1.isDigit && s2.isDigit then
      some ⟨((digitVal m1 * 10 + digitVal m2) * 60 +
              (digitVal s1 * 10 + digitVal s2)) * 1000000000⟩
    else none
  | [h1, ':', m1, m2, ':', s1, s2] =>
    if h1.isDigit && m1.isDigit && m2.isDigit && s1.isDigit && s2.isDigit then
      some ⟨(digitVal h1 * 3600 + (digitVal m1 * 10 + digitVal m2) * 60 +
              (digitVal s1 * 10 + digitVal s2)) * 1000000000⟩
    else none
  | [h1, h2, ':', m1, m2, ':', s1, s2] =>
    if h1.isDigit && h2.isDigit && m1.isDigit && m2.isDigit && s1.isDigit && s2.isDigit then
      some ⟨((digitVal h1 * 10 + digitVal h2) * 3600 +
              (digitVal m1 * 10 + digitVal m2) * 60 +
              (digitVal s1 * 10 + digitVal s2)) * 1000000000⟩
    else none
  | _ => none

/-- TimeSpan::from_str on a string (Ok modelled as some). -/
def timespanFromStr (s : String) : Option TimeSpan := timespanFromChars s.data

/-! ### ircalc.rs: the race-end helper on telemetry frames -/

/-- ir/flags.rs SessionState. -/
inductive SessionState where
  | Invalid
  | GetInCar
  | Warmup
  | ParadeLaps
  | Racing
  | Checkered
  | CoolDown
deriving DecidableEq, Repr

/-- ir/flags.rs TrackLocation. -/
inductive TrackLocation where
  | NotInWorld
  | OffTrack
  | InPitStall
  | ApproachingPits
  | OnTrack
deriving DecidableEq, Repr

/-- ircalc.rs IRacingTelemetryRow (session_flags kept as the raw bitmask). -/
structure IRacingTelemetryRow where
  session_num : ℤ
  session_time : ℚ
  is_on_track : Bool
  player_track_surface : TrackLocation
  session_state : SessionState
  session_flags : ℕ
  session_time_remain : ℚ
  session_laps_remain : ℤ
  session_time_total : ℚ
  session_laps_total : ℤ
  lap : ℤ
  lap_completed : ℤ
  race_laps : ℤ
  fuel_level : ℚ
  lap_progress : ℚ
  track_temp : ℚ
deriving DecidableEq, Repr

/-- ir.rs IRSDK_UNLIMITED_LAPS. -/
def IRSDK_UNLIMITED_LAPS : ℤ := 32767

/-- ir.rs IRSDK_UNLIMITED_TIME (seconds). -/
def IRSDK_UNLIMITED_TIME : ℚ := 604800

/-- Rust std Duration::from_secs_f64 on a non-negative value: round to the
nearest nanosecond. -/
def fromSecsF64 (q : ℚ) : TimeSpan := ⟨(round (q * 1000000000)).toNat⟩

/-- The `(tm, laps)` pair chosen by IRacingTelemetryRow::ends: session
totals during Warmup/ParadeLaps, remaining counts otherwise. -/
def endsPair (f : IRacingTelemetryRow) : ℚ × ℤ :=
  match f.session_state with
  | .Warmup | .ParadeLaps => (f.session_time_total, f.session_laps_total)
  | _ => (f.session_time_remain, f.session_laps_remain)

/-- IRacingTelemetryRow::ends. -/
def ends (f : IRacingTelemetryRow) : EndsWith :=
  let tm := (endsPair f).1
  let laps := (endsPair f).2
  if tm = IRSDK_UNLIMITED_TIME then
    if laps = IRSDK_UNLIMITED_LAPS then
      .Time (fromSecsF64 (max (30 * 60 - f.session_time) 0))
    else
      .Laps laps
  else if laps = IRSDK_UNLIMITED_LAPS then
    .Time (fromSecsF64 (max tm 0))
  else
    .LapsOrTime laps (fromSecsF64 (max tm 0))

/-- A duration value as the spec writes it: a TimeSpan is a non-negative
duration (and Duration::from_secs_f64 panics on a negative argument), so a
negative number of seconds yields no TimeSpan. -/
def fromSecsChecked (q : ℚ) : Option TimeSpan :=
  if q < 0 then none else some (fromSecsF64 q)

/-- Modelled from the spec: the mapping §4.5(10) describes, word for word:
both sentinels → `Time(max(0, 30·60 − session_time))`; only laps unlimited
→ `Time(tm)`; only time unlimited → `Laps(laps)`; otherwise
`LapsOrTime(laps, tm)`; with the spec's `Time(x)` of a negative `x` not
denoting a TimeSpan. -/
def endsSpec (f : IRacingTelemetryRow) : Option EndsWith :=
  let tm := (endsPair f).1
  let laps := (endsPair f).2
  if tm = IRSDK_UNLIMITED_TIME ∧ laps = IRSDK_UNLIMITED_LAPS then
    (fromSecsChecked (max 0 (30 * 60 - f.session_time))).map .Time
  else if laps = IRSDK_UNLIMITED_LAPS then
    (fromSecsChecked tm).map .Time
  else if tm = IRSDK_UNLIMITED_TIME then
    some (.Laps laps)
  else
    (fromSecsChecked tm).map (.LapsOrTime laps)

/-- Modelled from the spec, amended: the same mapping with the remaining
time clamped at zero (`Time(max(0, tm))`, `LapsOrTime(laps, max(0, tm))`)
in the branches that build a duration from `tm`. -/
def endsSpecClamped (f : IRacingTelemetryRow) : EndsWith :=
  let tm := (endsPair f).1
  let laps := (endsPair f).2
  if tm = IRSDK_UNLIMITED_TIME ∧ laps = IRSDK_UNLIMITED_LAPS then
    .Time (fromSecsF64 (max 0 (30 * 60 - f.session_time)))
  else if laps = IRSDK_UNLIMITED_LAPS then
    .Time (fromSecsF64 (max 0 tm))
  else if tm = IRSDK_UNLIMITED_TIME then
    .Laps laps
  else
    .LapsOrTime laps (fromSecsF64 (max 0 tm))

/-! ### Concrete values used to instantiate the claims -/

/-- A small request: 1 litre aboard, 2-litre tank, 4 laps at 1 litre/30 s
per lap.  The planner splits it as stints of 1, 2 and 1 laps. -/
def rA : StratRequest :=
  { fuel_left := 1, tank_size := 2, max_fuel_save := 0, min_fuel := 0,
    yellow_togo := 0, ends := .Laps 4,
    green := ⟨1, ⟨30000000000⟩⟩, yellow := ⟨1, ⟨30000000000⟩⟩ }

/-- The strategy compute returns for `rA`. -/
def sA : Strategy :=
  { stints := [⟨1, 1, ⟨30000000000⟩⟩, ⟨2, 2, ⟨60000000000⟩⟩, ⟨1, 1, ⟨30000000000⟩⟩],
    stops := [⟨0, 1⟩, ⟨2, 3⟩], fuel_to_save := 0,
    green := ⟨1, ⟨30000000000⟩⟩, yellow := ⟨1, ⟨30000000000⟩⟩ }

/-- Full tank of 4 litres, 10 laps at 1 litre each, 50% max fuel save:
stints use 4, 4 and 2 litres, so the last stint (2) is below the save cap
(10 · 1/2 = 5) yet not below tank_size · max_fuel_save (2). -/
def rC2 : StratRequest :=
  { fuel_left := 4, tank_size := 4, max_fuel_save := 1/2, min_fuel := 0,
    yellow_togo := 0, ends := .Laps 10,
    green := ⟨1, ⟨30000000000⟩⟩, yellow := ⟨1, ⟨30000000000⟩⟩ }

/-- The strategy compute returns for `rC2` (fuel_to_save is 2). -/
def sC2 : Strategy :=
  { stints := [⟨4, 4, ⟨120000000000⟩⟩, ⟨4, 4, ⟨120000000000⟩⟩, ⟨2, 2, ⟨60000000000⟩⟩],
    stops := [⟨2, 4⟩, ⟨6, 8⟩], fuel_to_save := 2,
    green := ⟨1, ⟨30000000000⟩⟩, yellow := ⟨1, ⟨30000000000⟩⟩ }

/-- Six yellow laps at 1 litre each with a 10-litre tank but only 2 litres
aboard and a green rate of 5 litres/lap: the last stint (4 laps) is longer
than a full green stint (floor(10/5) = 2 laps), so ext starts negative and
the emitted window has open > close. -/
def rC4 : StratRequest :=
  { fuel_left := 2, tank_size := 10, max_fuel_save := 0, min_fuel := 0,
    yellow_togo := 6, ends := .Laps 6,
    green := ⟨5, ⟨40000000000⟩⟩, yellow := ⟨1, ⟨60000000000⟩⟩ }

/-- The strategy compute returns for `rC4` (its single stop is (4, 2)). -/
def sC4 : Strategy :=
  { stints := [⟨2, 2, ⟨120000000000⟩⟩, ⟨4, 4, ⟨240000000000⟩⟩],
    stops := [⟨4, 2⟩], fuel_to_save := 0,
    green := ⟨5, ⟨40000000000⟩⟩, yellow := ⟨1, ⟨60000000000⟩⟩ }

/-- Two laps at 15 litres each with a 10-litre tank: both stints are
single-lap stints of 15 litres, so the second (non-first) stint exceeds
tank_size even though min_fuel = 0. -/
def rC5 : StratRequest :=
  { fuel_left := 20, tank_size := 10, max_fuel_save := 0, min_fuel := 0,
    yellow_togo := 0, ends := .Laps 2,
    green := ⟨15, ⟨30000000000⟩⟩, yellow := ⟨15, ⟨30000000000⟩⟩ }

/-- The strategy compute returns for `rC5`. -/
def sC5 : Strategy :=
  { stints := [⟨1, 15, ⟨30000000000⟩⟩, ⟨1, 15, ⟨30000000000⟩⟩],
    stops := [⟨2, 1⟩], fuel_to_save := 0,
    green := ⟨15, ⟨30000000000⟩⟩, yellow := ⟨15, ⟨30000000000⟩⟩ }

/-- The planned lap list for `rA`: four green laps. -/
def lA : List Rate :=
  [⟨1, ⟨30000000000⟩⟩, ⟨1, ⟨30000000000⟩⟩, ⟨1, ⟨30000000000⟩⟩, ⟨1, ⟨30000000000⟩⟩]

/-- The RaceSession configuration used by the concrete History values. -/
def cfgT : RaceSession :=
  { fuel_tank_size := 10, max_fuel_save := 0, min_fuel := 0, track_id := 1,
    track_name := "Test", layout_name := "Oval", car_id := 1, car := "PM 18" }

/-- A History with exactly one recorded green lap (1 litre, 30 s) and a
historical green default of 2 litres / 40 s. -/
def hC3 : History :=
  { cfg := cfgT, laps := [⟨1, 9, ⟨30000000000⟩, 0⟩],
    def_green := some ⟨2, ⟨40000000000⟩⟩, def_yellow := none }

/-- A History with no recorded laps and a historical green default. -/
def hW3 : History :=
  { cfg := cfgT, laps := [], def_green := some ⟨1, ⟨30000000000⟩⟩, def_yellow := none }

/-- A History with two green laps, no yellow laps and no historical data. -/
def hW9 : History :=
  { cfg := cfgT,
    laps := [⟨1, 9, ⟨30000000000⟩, 0⟩, ⟨1, 8, ⟨30000000000⟩, 0⟩],
    def_green := none, def_yellow := none }

/-- A History whose lap list ends with one yellow lap after a green lap. -/
def hW10 : History :=
  { cfg := cfgT,
    laps := [⟨1, 9, ⟨30000000000⟩, 0⟩, ⟨1/2, 17/2, ⟨60000000000⟩, 1⟩],
    def_green := none, def_yellow := none }

/-- The request History::strat builds from `hW9` with 10 litres aboard for
a 5-lap race end: the yellow rate is synthesized from the green rate. -/
def rW9 : StratRequest :=
  { fuel_left := 10, tank_size := 10, max_fuel_save := 0, min_fuel := 0,
    yellow_togo := 0, ends := .Laps 5,
    green := ⟨1, ⟨30000000000⟩⟩, yellow := ⟨1/3, ⟨120000000000⟩⟩ }

/-- The request History::strat builds from `hW10` with 5 litres aboard for
a 5-lap race end: one trailing yellow lap gives yellow_togo = 2. -/
def rW10 : StratRequest :=
  { fuel_left := 5, tank_size := 10, max_fuel_save := 0, min_fuel := 0,
    yellow_togo := 2, ends := .Laps 5,
    green := ⟨1, ⟨30000000000⟩⟩, yellow := ⟨1/3, ⟨120000000000⟩⟩ }

/-- A racing frame with negative remaining time and unlimited laps. -/
def fC8 : IRacingTelemetryRow :=
  { session_num := 0, session_time := 100, is_on_track := true,
    player_track_surface := .OnTrack, session_state := .Racing,
    session_flags := 0, session_time_remain := -5, session_laps_remain := 32767,
    session_time_total := 7200, session_laps_total := 100, lap := 1,
    lap_completed := 0, race_laps := 0, fuel_level := 10, lap_progress := 1/2,
    track_temp := 25 }

/-! ### General lemmas about the planner -/

/-- Time accumulated by the first `d` laps of the iterator starting at
position `k`. -/
def relSum (r : StratRequest) (k d : ℕ) : ℕ :=
  ∑ j ∈ Finset.range d, (rateAt r (k + j)).time.ns

/-- Time accumulated before lap `k` of the planned lap iterator. -/
def sumTimeTo (r : StratRequest) (k : ℕ) : ℕ := relSum r 0 k

/-- The take_while predicate evaluated at position `k` of the iterator:
`laps` equals `k` and `tm` equals the time of the first `k` laps there. -/
def okTest (r : StratRequest) (k : ℕ) : Bool :=
  contTest r.ends (k : ℤ) (sumTimeTo r k)

theorem relSum_zero (r : StratRequest) (k : ℕ) : relSum r k 0 = 0 := by
  simp [relSum]

theorem relSum_succ (r : StratRequest) (k d : ℕ) :
    relSum r k (d + 1) = (rateAt r k).time.ns + relSum r (k + 1) d := by
  unfold relSum
  rw [Finset.sum_range_succ']
  rw [add_comm]
  congr 1
  exact Finset.sum_congr rfl (fun j _ => by rw [show k + (j + 1) = k + 1 + j by omega])

/-- Soundness of the fueled lap iterator: a `some` result is exactly the
maximal run of laps passing the take_while test, the test failing right
after it, and the laps are the iterator's rates in order. -/
theorem lapsGo_sound (r : StratRequest) :
    ∀ (fb k tm : ℕ) (l : List Rate), lapsGo r fb k tm = some l →
      (∀ d, d < l.length → contTest r.ends ((k + d : ℕ) : ℤ) (tm + relSum r k d) = true) ∧
      contTest r.ends ((k + l.length : ℕ) : ℤ) (tm + relSum r k l.length) = false ∧
      l = (List.range l.length).map (fun d => rateAt r (k + d)) := by
  intro fb
  induction fb with
  | zero => intro k tm l h; simp [lapsGo] at h
  | succ fb ih =>
    intro k tm l h
    rw [lapsGo] at h
    by_cases hc : contTest r.ends (k : ℤ) tm = true
    · rw [if_pos hc] at h
      rcases Option.map_eq_some'.mp h with ⟨l', hl', rfl⟩
      obtain ⟨h1, h2, h3⟩ := ih (k + 1) (tm + (rateAt r k).time.ns) l' hl'
      refine ⟨?_, ?_, ?_⟩
      · intro d hd
        match d with
        | 0 => simpa [relSum_zero] using hc
        | d' + 1 =>
          have := h1 d' (by simpa using hd)
          rw [relSum_succ]
          rw [show (k + (d' + 1) : ℕ) = (k + 1 + d' : ℕ) by omega]
          rw [show tm + ((rateAt r k).time.ns + relSum r (k + 1) d') =
                tm + (rateAt r k).time.ns + relSum r (k + 1) d' by omega]
          exact this
      · rw [List.length_cons, relSum_succ,
          show (k + (l'.length + 1) : ℕ) = (k + 1 + l'.length : ℕ) by omega,
          show tm + ((rateAt r k).time.ns + relSum r (k + 1) l'.length) =
            tm + (rateAt r k).time.ns + relSum r (k + 1) l'.length by omega]
        exact h2
      · rw [List.length_cons, List.range_succ_eq_map, List.map_cons, List.map_map]
        refine congrArg₂ List.cons (by simp) ?_
        conv_lhs => rw [h3]
        refine List.map_congr_left (fun d _ => ?_)
        simp only [Function.comp_apply]
        exact congrArg (rateAt r) (by omega)
    · rw [if_neg hc] at h
      simp only [Option.some.injEq] at h
      subst h
      refine ⟨by intro d hd; simp at hd, ?_, by simp⟩
      simpa [relSum_zero] using (Bool.not_eq_true _).mp hc

/-- Totality of the fueled lap iterator: as soon as the take_while test
fails within the fuel bound, the iterator returns a finite list. -/
theorem lapsGo_total (r : StratRequest) :
    ∀ (fb k tm : ℕ),
      (∃ d, d < fb ∧ contTest r.ends ((k + d : ℕ) : ℤ) (tm + relSum r k d) = false) →
      (lapsGo r fb k tm).isSome := by
  intro fb
  induction fb with
  | zero => intro k tm ⟨d, hd, _⟩; omega
  | succ fb ih =>
    intro k tm ⟨d, hd, hfail⟩
    rw [lapsGo]
    by_cases hc : contTest r.ends (k : ℤ) tm = true
    · rw [if_pos hc]
      rw [Option.isSome_map']
      match d with
      | 0 => rw [relSum_zero] at hfail; simp at hfail; rw [hfail] at hc; simp at hc
      | d' + 1 =>
        refine ih (k + 1) (tm + (rateAt r k).time.ns) ⟨d', by omega, ?_⟩
        rw [show (k + 1 + d' : ℕ) = (k + (d' + 1) : ℕ) by omega]
        rw [show tm + (rateAt r k).time.ns + relSum r (k + 1) d' =
              tm + ((rateAt r k).time.ns + relSum r (k + 1) d') by omega, ← relSum_succ]
        exact hfail
    · rw [if_neg hc]
      rfl

/-- Every stint produced by the stint-building loop has a non-negative lap
count (each stint counts the laps added to it). -/
theorem stintsGo_laps_nonneg (r : StratRequest) :
    ∀ (laps : List Rate) (f : ℚ) (cur : Stint), 0 ≤ cur.laps →
      ∀ st ∈ stintsGo r laps f cur, 0 ≤ st.laps := by
  intro laps
  induction laps with
  | nil =>
    intro f cur hcur st hst
    rw [stintsGo] at hst
    split at hst
    · rcases List.mem_singleton.mp hst with rfl; exact hcur
    · simp at hst
  | cons lap rest ih =>
    intro f cur hcur st hst
    rw [stintsGo] at hst
    split at hst
    · rcases List.mem_cons.mp hst with rfl | hmem
      · exact hcur
      · exact ih _ _ (by simp [Stint.add, Stint.new]) st hmem
    · exact ih _ _ (by simp [Stint.add]; omega) st hst

/-- The stint-building loop returns the empty list iff it was given no laps
and an empty current stint. -/
theorem stintsGo_ne_nil (r : StratRequest) :
    ∀ (laps : List Rate) (f : ℚ) (cur : Stint), 0 ≤ cur.laps →
      (0 < cur.laps ∨ laps ≠ []) → stintsGo r laps f cur ≠ [] := by
  intro laps
  induction laps with
  | nil =>
    intro f cur _ h
    rcases h with h | h
    · rw [stintsGo, if_pos h]; simp
    · simp at h
  | cons lap rest ih =>
    intro f cur hcur _
    rw [stintsGo]
    split
    · simp
    · exact ih _ _ (by simp [Stint.add]; omega) (Or.inl (by simp [Stint.add]; omega))

theorem stintsGo_nil_of_nil (r : StratRequest) (f : ℚ) :
    stintsGo r [] f Stint.new = [] := by
  rw [stintsGo]
  simp [Stint.new]

/-- Fuel invariant inside a refilled stint: if the current stint's fuel and
the remaining fuel add up to the tank size and the remaining fuel is
non-negative, then every stint the loop will emit uses at most a tank. -/
theorem stintsGo_all_fuel_le (r : StratRequest) (hmin : 0 ≤ r.min_fuel) :
    ∀ (laps : List Rate) (f : ℚ) (cur : Stint),
      (∀ lap ∈ laps, lap.fuel ≤ r.tank_size) →
      cur.fuel + f = r.tank_size → 0 ≤ f →
      ∀ st ∈ stintsGo r laps f cur, st.fuel ≤ r.tank_size := by
  intro laps
  induction laps with
  | nil =>
    intro f cur _ hsum hf st hst
    rw [stintsGo] at hst
    split at hst
    · rcases List.mem_singleton.mp hst with rfl
      linarith
    · simp at hst
  | cons lap rest ih =>
    intro f cur hlaps hsum hf st hst
    have hlap : lap.fuel ≤ r.tank_size := hlaps lap (List.mem_cons_self _ _)
    rw [stintsGo] at hst
    split at hst
    · rcases List.mem_cons.mp hst with rfl | hmem
      · linarith
      · refine ih _ _ (fun x hx => hlaps x (List.mem_cons_of_mem _ hx)) ?_ ?_ st hmem
        · simp [Stint.add, Stint.new]
        · linarith
    · rename_i hcond
      push_neg at hcond
      refine ih _ _ (fun x hx => hlaps x (List.mem_cons_of_mem _ hx)) ?_ ?_ st hst
      · simp [Stint.add]; linarith [hsum]
      · linarith

/-- Every stint emitted by the loop other than the first uses at most a
tank of fuel, provided min_fuel is non-negative and no single lap uses more
than a tank. -/
theorem stintsGo_tail_fuel_le (r : StratRequest) (hmin : 0 ≤ r.min_fuel) :
    ∀ (laps : List Rate) (f : ℚ) (cur : Stint),
      (∀ lap ∈ laps, lap.fuel ≤ r.tank_size) →
      ∀ st ∈ (stintsGo r laps f cur).tail, st.fuel ≤ r.tank_size := by
  intro laps
  induction laps with
  | nil =>
    intro f cur _ st hst
    rw [stintsGo] at hst
    split at hst <;> simp at hst
  | cons lap rest ih =>
    intro f cur hlaps st hst
    have hlap : lap.fuel ≤ r.tank_size := hlaps lap (List.mem_cons_self _ _)
    rw [stintsGo] at hst
    split at hst
    · rw [List.tail_cons] at hst
      refine stintsGo_all_fuel_le r hmin _ _ _
        (fun x hx => hlaps x (List.mem_cons_of_mem _ hx)) ?_ ?_ st hst
      · simp [Stint.add, Stint.new]
      · linarith
    · exact ih _ _ (fun x hx => hlaps x (List.mem_cons_of_mem _ hx)) st hst

/-- Window invariant of the stops loop: with a non-negative extension
budget, non-negative stint lengths and open ≤ close so far, every emitted
stop has open ≤ close and a window no wider than the remaining budget. -/
theorem stopsGo_bounds :
    ∀ (sts : List Stint) (lapOpen lapClose ext : ℤ),
      0 ≤ ext → lapOpen ≤ lapClose → (∀ st ∈ sts, 0 ≤ st.laps) →
      ∀ p ∈ stopsGo sts lapOpen lapClose ext,
        p.openLap ≤ p.closeLap ∧
        p.closeLap - p.openLap ≤ (lapClose - lapOpen) + ext := by
  intro sts
  induction sts with
  | nil => intro _ _ _ _ _ _ p hp; simp [stopsGo] at hp
  | cons st rest ih =>
    intro lapOpen lapClose ext hext hoc hlaps p hp
    have hst : 0 ≤ st.laps := hlaps st (List.mem_cons_self _ _)
    rw [stopsGo] at hp
    rcases List.mem_cons.mp hp with rfl | hmem
    · constructor
      · simp only
        omega
      · simp only
        omega
    · have := ih (lapOpen + (st.laps - min ext st.laps)) (lapClose + st.laps)
        (ext - min ext st.laps) (by omega) (by omega)
        (fun x hx => hlaps x (List.mem_cons_of_mem _ hx)) p hmem
      omega

/-- Elements of a take_while prefix satisfy the predicate. -/
theorem mem_takeWhile_sat {α : Type} (p : α → Bool) :
    ∀ (l : List α) (x : α), x ∈ l.takeWhile p → p x = true := by
  intro l
  induction l with
  | nil => intro x hx; simp [List.takeWhile] at hx
  | cons a t ih =>
    intro x hx
    rw [List.takeWhile] at hx
    cases hpa : p a with
    | true =>
      rw [hpa] at hx
      rcases List.mem_cons.mp hx with rfl | hmem
      · exact hpa
      · exact ih x hmem
    | false => rw [hpa] at hx; simp at hx

/-- Taking as many elements as the take_while prefix is long recovers it. -/
theorem take_length_takeWhile {α : Type} (p : α → Bool) :
    ∀ l : List α, l.take (l.takeWhile p).length = l.takeWhile p := by
  intro l
  induction l with
  | nil => rfl
  | cons a t ih =>
    rw [List.takeWhile]
    cases hpa : p a with
    | true => simp [List.take_succ_cons, ih]
    | false => simp

/-- A prefix all of whose elements satisfy the predicate is no longer than
the take_while prefix. -/
theorem le_length_takeWhile_of_all {α : Type} (p : α → Bool) :
    ∀ (l : List α) (m : ℕ), m ≤ l.length → (∀ x ∈ l.take m, p x = true) →
      m ≤ (l.takeWhile p).length := by
  intro l
  induction l with
  | nil => intro m hm _; simpa using hm
  | cons a t ih =>
    intro m hm hall
    match m with
    | 0 => omega
    | m' + 1 =>
      have hpa : p a = true := hall a (by simp [List.take_succ_cons])
      rw [List.takeWhile, hpa, List.length_cons]
      have := ih m' (by simpa using hm)
        (fun x hx => hall x (by simp [List.take_succ_cons]; exact Or.inr hx))
      omega

/-- The count component of the recent-green fold is the number of laps
folded over. -/
theorem foldl_count_rate {α : Type} (g : Rate → α → Rate) :
    ∀ (l : List α) (n : ℕ) (rt : Rate),
      (l.foldl (fun (acc : ℕ × Rate) lap => (acc.1 + 1, g acc.2 lap)) (n, rt)).1 =
        n + l.length := by
  intro l
  induction l with
  | nil => intro n rt; simp
  | cons a t ih => intro n rt; simp [List.foldl_cons, ih]; omega

/-- Inversion of a successful compute: the planner ran the lap iterator to
completion, built a nonempty stint list from it, and filled in the
strategy's fields from stints. -/
theorem computeF_inv (r : StratRequest) (fb : ℕ) (s : Strategy)
    (h : computeF r fb = some (some s)) :
    ∃ l, lapsListF r fb = some l ∧
      s.stints = stintsGo r l r.fuel_left Stint.new ∧
      s.stops = stops r s.stints ∧
      s.fuel_to_save = fuelSave r s.stints ∧
      s.green = r.green ∧ s.yellow = r.yellow ∧ s.stints ≠ [] := by
  unfold computeF stintsF at h
  cases hl : lapsListF r fb with
  | none => rw [hl] at h; simp at h
  | some l =>
    rw [hl] at h
    simp only [Option.map_some', Option.some.injEq] at h
    refine ⟨l, rfl, ?_⟩
    by_cases hnil : stintsGo r l r.fuel_left Stint.new = []
    · rw [if_pos hnil] at h; simp at h
    · rw [if_neg hnil] at h
      obtain rfl := Option.some.inj h
      exact ⟨rfl, rfl, rfl, rfl, rfl, hnil⟩

set_option maxRecDepth 8000 in
/-- Concrete planner run for `rA`. -/
theorem computeF_rA : computeF rA 10 = some (some sA) := by
  norm_num [computeF, stintsF, lapsListF, lapsGo, stintsGo, rateAt, yellowCount,
    contTest, stops, stopsGo, stintLast, fullStintLen, fuelSave, Stint.new,
    Stint.add, rA, sA]
  intro hfalse
  simp at hfalse

set_option maxRecDepth 8000 in
/-- The planned lap list for `rA`: four green laps. -/
theorem lapsListF_rA : lapsListF rA 10 = some lA := by
  norm_num [lapsListF, lapsGo, rateAt, yellowCount, contTest, rA, lA]

set_option maxRecDepth 8000 in
set_option maxHeartbeats 1000000 in
/-- Concrete planner run for `rC2`. -/
theorem computeF_rC2 : computeF rC2 15 = some (some sC2) := by
  norm_num [computeF, stintsF, lapsListF, lapsGo, stintsGo, rateAt, yellowCount,
    contTest, stops, stopsGo, stintLast, fullStintLen, fuelSave, Stint.new,
    Stint.add, rC2, sC2]
  intro hfalse
  simp at hfalse

set_option maxRecDepth 8000 in
/-- Concrete planner run for `rC4`. -/
theorem computeF_rC4 : computeF rC4 10 = some (some sC4) := by
  norm_num [computeF, stintsF, lapsListF, lapsGo, stintsGo, rateAt, yellowCount,
    contTest, stops, stopsGo, stintLast, fullStintLen, fuelSave, Stint.new,
    Stint.add, rC4, sC4]
  intro hfalse
  simp at hfalse

set_option maxRecDepth 8000 in
/-- Concrete planner run for `rC5`. -/
theorem computeF_rC5 : computeF rC5 5 = some (some sC5) := by
  norm_num [computeF, stintsF, lapsListF, lapsGo, stintsGo, rateAt, yellowCount,
    contTest, stops, stopsGo, stintLast, fullStintLen, fuelSave, Stint.new,
    Stint.add, rC5, sC5]
  intro hfalse
  simp at hfalse

/-! ### Claim C2 -/

/-- C2 (counterexample): on `rC2` compute returns a strategy whose
fuel_to_save is 2, which is neither 0 nor strictly less than
tank_size · max_fuel_save = 4 · 1/2 = 2. -/
theorem claim2_counterexample :
    computeF rC2 15 = some (some sC2) ∧
    ¬(sC2.fuel_to_save = 0 ∨ sC2.fuel_to_save < rC2.tank_size * rC2.max_fuel_save) := by
  refine ⟨computeF_rC2, ?_⟩
  norm_num [sC2, rC2]

/-- C2 (amended): for every StratRequest on which compute returns Some(s),
s.fuel_to_save is either 0 or strictly less than the total planned fuel
(Σ stints.fuel) times max_fuel_save. -/
theorem claim2_fuel_save_bound (r : StratRequest) (fb : ℕ) (s : Strategy)
    (h : computeF r fb = some (some s)) :
    s.fuel_to_save = 0 ∨
      s.fuel_to_save < (s.stints.map Stint.fuel).sum * r.max_fuel_save := by
  obtain ⟨l, _, _, _, hsave, _⟩ := computeF_inv r fb s h
  rw [hsave]
  simp only [fuelSave]
  by_cases hlt :
      (stintLast s.stints).fuel < (s.stints.map Stint.fuel).sum * r.max_fuel_save
  · rw [if_pos hlt]
    exact Or.inr hlt
  · rw [if_neg hlt]
    exact Or.inl rfl

/-- C2 (witness for the amended bound at rC2). -/
theorem claim2_witness :
    sC2.fuel_to_save = 0 ∨
      sC2.fuel_to_save < (sC2.stints.map Stint.fuel).sum * rC2.max_fuel_save :=
  claim2_fuel_save_bound rC2 15 sC2 computeF_rC2

/-! ### Claim C4 -/

/-- C4 (counterexample): on `rC4` compute returns a strategy containing the
pit window (4, 2), whose open bound exceeds its close bound. -/
theorem claim4_counterexample :
    computeF rC4 10 = some (some sC4) ∧
    Pitstop.mk 4 2 ∈ sC4.stops ∧
    ¬((Pitstop.mk 4 2).openLap ≤ (Pitstop.mk 4 2).closeLap) := by
  refine ⟨computeF_rC4, by simp [sC4], by norm_num⟩

/-- C4 (amended): for every StratRequest on which compute returns Some(s),
provided the last stint is no longer than full_stint_len =
floor(tank_size / green.fuel), every pitstop in s.stops satisfies
open ≤ close and close − open ≤ full_stint_len − stints.last.laps. -/
theorem claim4_stop_window_bounds (r : StratRequest) (fb : ℕ) (s : Strategy)
    (h : computeF r fb = some (some s))
    (hfull : (stintLast s.stints).laps ≤ fullStintLen r) :
    ∀ p ∈ s.stops, p.openLap ≤ p.closeLap ∧
      p.closeLap - p.openLap ≤ fullStintLen r - (stintLast s.stints).laps := by
  obtain ⟨l, _, hstints, hstops, _⟩ := computeF_inv r fb s h
  intro p hp
  rw [hstops] at hp
  unfold stops at hp
  have hlaps : ∀ st ∈ s.stints, 0 ≤ st.laps := by
    rw [hstints]
    exact stintsGo_laps_nonneg r l r.fuel_left Stint.new (by simp [Stint.new])
  have := stopsGo_bounds (s.stints.take (s.stints.length - 1)) 0 0
    (fullStintLen r - (stintLast s.stints).laps) (by omega) le_rfl
    (fun st hst => hlaps st (List.mem_of_mem_take hst)) p hp
  omega

/-- C4 (witness for the amended bounds at rA, at its first stop (0, 1)). -/
theorem claim4_witness :
    (Pitstop.mk 0 1).openLap ≤ (Pitstop.mk 0 1).closeLap ∧
    (Pitstop.mk 0 1).closeLap - (Pitstop.mk 0 1).openLap ≤
      fullStintLen rA - (stintLast sA.stints).laps :=
  claim4_stop_window_bounds rA 10 sA computeF_rA
    (by norm_num [sA, rA, stintLast, fullStintLen, List.getLastD])
    (Pitstop.mk 0 1) (by simp [sA])

/-! ### Claim C5 -/

/-- C5 (counterexample): `rC5` has min_fuel = 0 ≥ 0, yet its second
(non-first) stint uses 15 litres against a 10-litre tank: a lap whose fuel
exceeds the tank produces an over-full single-lap stint even after a
refill. -/
theorem claim5_counterexample :
    0 ≤ rC5.min_fuel ∧ computeF rC5 5 = some (some sC5) ∧
    Stint.mk 1 15 ⟨30000000000⟩ ∈ sC5.stints.tail ∧
    ¬(Stint.mk 1 15 ⟨30000000000⟩).fuel ≤ rC5.tank_size := by
  refine ⟨by norm_num [rC5], computeF_rC5, by simp [sC5], by norm_num [rC5]⟩

/-- C5 (amended): for every StratRequest with min_fuel ≥ 0 whose green and
yellow per-lap fuel rates fit in the tank, on which compute returns
Some(s), every stint of s.stints except possibly the first satisfies
stint.fuel ≤ tank_size. -/
theorem claim5_stint_fuel_le_tank (r : StratRequest) (fb : ℕ) (s : Strategy)
    (hmin : 0 ≤ r.min_fuel) (hg : r.green.fuel ≤ r.tank_size)
    (hy : r.yellow.fuel ≤ r.tank_size)
    (h : computeF r fb = some (some s)) :
    ∀ st ∈ s.stints.tail, st.fuel ≤ r.tank_size := by
  obtain ⟨l, hl, hstints, _⟩ := computeF_inv r fb s h
  have hlfuel : ∀ lap ∈ l, lap.fuel ≤ r.tank_size := by
    obtain ⟨_, _, hmap⟩ := lapsGo_sound r fb 0 0 l hl
    intro lap hlap
    rw [hmap] at hlap
    rcases List.mem_map.mp hlap with ⟨d, _, rfl⟩
    unfold rateAt
    split
    · exact hy
    · exact hg
  rw [hstints]
  exact stintsGo_tail_fuel_le r hmin l r.fuel_left Stint.new hlfuel

/-- C5 (witness for the amended invariant at rA, at its second stint). -/
theorem claim5_witness : (Stint.mk 2 2 ⟨60000000000⟩).fuel ≤ rA.tank_size :=
  claim5_stint_fuel_le_tank rA 10 sA (by norm_num [rA]) (by norm_num [rA])
    (by norm_num [rA]) computeF_rA (Stint.mk 2 2 ⟨60000000000⟩) (by simp [sA])

/-! ### Claim C7 -/

/-- C7: compute returns None exactly when the planner would run zero
remaining laps from now: None iff the planned lap list is empty, which
holds iff the race-end test already fails before the first lap; whenever
at least one lap is planned, compute returns Some strategy. -/
theorem claim7_compute_none_iff_no_laps (r : StratRequest) (fb : ℕ) (l : List Rate)
    (hl : lapsListF r fb = some l) :
    (computeF r fb = some none ↔ l = []) ∧
    (l = [] ↔ okTest r 0 = false) ∧
    (l ≠ [] → ∃ s, computeF r fb = some (some s)) := by
  have hstints : stintsF r fb = some (stintsGo r l r.fuel_left Stint.new) := by
    unfold stintsF
    rw [hl]
    rfl
  have hcomp : computeF r fb =
      some (if stintsGo r l r.fuel_left Stint.new = [] then none
            else some { stints := stintsGo r l r.fuel_left Stint.new,
                        stops := stops r (stintsGo r l r.fuel_left Stint.new),
                        fuel_to_save := fuelSave r (stintsGo r l r.fuel_left Stint.new),
                        green := r.green, yellow := r.yellow }) := by
    unfold computeF
    rw [hstints]
    rfl
  have hempty : stintsGo r l r.fuel_left Stint.new = [] ↔ l = [] := by
    constructor
    · intro he
      by_contra hne
      exact stintsGo_ne_nil r l r.fuel_left Stint.new (by simp [Stint.new]) (Or.inr hne) he
    · rintro rfl
      exact stintsGo_nil_of_nil r r.fuel_left
  obtain ⟨h1, h2, _⟩ := lapsGo_sound r fb 0 0 l hl
  have hok : l = [] ↔ okTest r 0 = false := by
    constructor
    · rintro rfl
      simpa [okTest, sumTimeTo, relSum_zero] using h2
    · intro hfail
      by_contra hne
      have := h1 0 (List.length_pos.mpr hne)
      rw [okTest] at hfail
      simp only [sumTimeTo, relSum_zero, Nat.add_zero, Nat.zero_add, Nat.cast_zero] at hfail this
      rw [this] at hfail
      exact Bool.true_eq_false.mp hfail
  refine ⟨?_, hok, ?_⟩
  · rw [hcomp]
    constructor
    · intro he
      have := Option.some.inj he
      by_cases hc : stintsGo r l r.fuel_left Stint.new = []
      · exact hempty.mp hc
      · rw [if_neg hc] at this
        simp at this
    · intro hle
      rw [if_pos (hempty.mpr hle)]
  · intro hne
    rw [hcomp, if_neg (fun hc => hne (hempty.mp hc))]
    exact ⟨_, rfl⟩

/-- C7 (witness at rA, whose planned lap list is the four laps of lA). -/
theorem claim7_witness :
    (computeF rA 10 = some none ↔ lA = []) ∧
    (lA = [] ↔ okTest rA 0 = false) ∧
    (lA ≠ [] → ∃ s, computeF rA 10 = some (some s)) :=
  claim7_compute_none_iff_no_laps rA 10 lA lapsListF_rA

/-! ### Claim C1 -/

/-- With a positive green lap time, the first `d` planned laps take at
least `d` minus the number of yellow laps nanoseconds. -/
theorem relSum_ge_sub (r : StratRequest) (ht : 0 < r.green.time.ns) :
    ∀ d : ℕ, d - yellowCount r.yellow_togo ≤ relSum r 0 d := by
  intro d
  induction d with
  | zero => simp [relSum_zero]
  | succ d ih =>
    have hstep : relSum r 0 (d + 1) = relSum r 0 d + (rateAt r d).time.ns := by
      unfold relSum
      rw [Finset.sum_range_succ]
      simp
    by_cases hd : d < yellowCount r.yellow_togo
    · rw [hstep]
      omega
    · have hgr : (rateAt r d).time.ns = r.green.time.ns := by
        unfold rateAt
        rw [if_neg hd]
      rw [hstep, hgr]
      omega

/-- There is always a position where the race-end test fails, given a
positive green lap time. -/
theorem exists_okTest_false (r : StratRequest) (ht : 0 < r.green.time.ns) :
    ∃ d, okTest r d = false := by
  match hE : r.ends with
  | .Laps L =>
    refine ⟨L.toNat, ?_⟩
    simp only [okTest, hE, contTest, decide_eq_false_iff_not]
    omega
  | .Time T =>
    refine ⟨yellowCount r.yellow_togo + T.ns + 1, ?_⟩
    have := relSum_ge_sub r ht (yellowCount r.yellow_togo + T.ns + 1)
    simp only [okTest, hE, contTest, sumTimeTo, decide_eq_false_iff_not]
    omega
  | .LapsOrTime L T =>
    refine ⟨L.toNat, ?_⟩
    simp only [okTest, hE, contTest, Bool.and_eq_false_iff, decide_eq_false_iff_not]
    left
    omega

/-- C1: for every StratRequest with a positive green lap rate, the lap
sequence the planner consumes terminates, the take_while test (applied
before each lap) passes at every taken lap and fails right after the last:
for Laps(L) exactly max(L, 0) laps are planned; for Time(T) every taken
lap starts at accumulated time ≤ T and the total time of the taken laps
exceeds T (the lap during which time runs out is counted); for
LapsOrTime(L, T) a lap is taken only while both tests pass. -/
theorem claim1_lap_sequence_termination (r : StratRequest)
    (_hf : 0 < r.green.fuel) (ht : 0 < r.green.time.ns) :
    (∃ fb l, lapsListF r fb = some l) ∧
    ∀ fb l, lapsListF r fb = some l →
      ((∀ d, d < l.length → okTest r d = true) ∧ okTest r l.length = false) ∧
      (∀ L, r.ends = .Laps L → (l.length : ℤ) = max L 0) ∧
      (∀ T, r.ends = .Time T →
        (∀ d, d < l.length → sumTimeTo r d ≤ T.ns) ∧ T.ns < sumTimeTo r l.length) ∧
      (∀ L T, r.ends = .LapsOrTime L T →
        (∀ d, d < l.length → (d : ℤ) < L ∧ sumTimeTo r d ≤ T.ns) ∧
        ¬((l.length : ℤ) < L ∧ sumTimeTo r l.length ≤ T.ns)) := by
  constructor
  · obtain ⟨d, hd⟩ := exists_okTest_false r ht
    have hfail : contTest r.ends ((0 + d : ℕ) : ℤ) (0 + relSum r 0 d) = false := by
      simpa [okTest, sumTimeTo] using hd
    have := lapsGo_total r (d + 1) 0 0 ⟨d, by omega, hfail⟩
    obtain ⟨l, hl⟩ := Option.isSome_iff_exists.mp this
    exact ⟨d + 1, l, hl⟩
  · intro fb l hl
    obtain ⟨h1, h2, _⟩ := lapsGo_sound r fb 0 0 l hl
    have hA : ∀ d, d < l.length → okTest r d = true := by
      intro d hd
      simpa [okTest, sumTimeTo] using h1 d hd
    have hB : okTest r l.length = false := by
      simpa [okTest, sumTimeTo] using h2
    refine ⟨⟨hA, hB⟩, ?_, ?_, ?_⟩
    · intro L hE
      have hBB : ¬((l.length : ℤ) < L) := by
        simpa [okTest, contTest, hE] using hB
      have hAA : ∀ d : ℕ, d < l.length → (d : ℤ) < L := by
        intro d hd
        simpa [okTest, contTest, hE] using hA d hd
      by_cases hlen : L.toNat < l.length
      · have := hAA _ hlen
        omega
      · omega
    · intro T hE
      constructor
      · intro d hd
        simpa [okTest, contTest, hE, sumTimeTo] using hA d hd
      · have := hB
        simp only [okTest, contTest, hE, decide_eq_false_iff_not] at this
        omega
    · intro L T hE
      constructor
      · intro d hd
        have := hA d hd
        simp only [okTest, contTest, hE, Bool.and_eq_true, decide_eq_true_eq] at this
        exact this
      · have := hB
        simp only [okTest, contTest, hE, Bool.and_eq_false_iff,
          decide_eq_false_iff_not] at this
        tauto

/-- C1 (witness: the planner's lap sequence for rA terminates). -/
theorem claim1_witness : ∃ fb l, lapsListF rA fb = some l :=
  (claim1_lap_sequence_termination rA (by norm_num [rA]) (by norm_num [rA])).1

/-! ### Claim C3 -/

/-- C3 (counterexample): hC3 has a historical default (2 litres / 40 s) and
exactly one recorded lap with empty condition (1 litre / 30 s, so the live
single-lap average is 1 litre / 30 s), yet recent_green returns the
historical default, not the live average. -/
theorem claim3_counterexample :
    (hC3.laps.filter (fun l => lapStateIsEmpty l.condition)).length = 1 ∧
    hC3.def_green = some ⟨2, ⟨40000000000⟩⟩ ∧
    recentGreen hC3 = some ⟨2, ⟨40000000000⟩⟩ ∧
    recentGreen hC3 ≠ some ⟨1, ⟨30000000000⟩⟩ := by
  refine ⟨by simp [hC3, lapStateIsEmpty], rfl, ?_, ?_⟩ <;>
    norm_num [recentGreen, greenFold, greensOf, hC3, lapStateIsEmpty,
      Rate.default, Rate.addLap]

/-- C3 (amended): whenever a historical default green rate is present and
fewer than two recorded laps have empty condition (zero or exactly one),
recent_green returns the historical default; the live average is used only
from two green laps on (or when no default exists). -/
theorem claim3_default_wins_below_two (h : History)
    (hdef : h.def_green.isSome)
    (hcount : (h.laps.filter (fun l => lapStateIsEmpty l.condition)).length < 2) :
    recentGreen h = h.def_green := by
  have hlen : (greensOf h).length ≤
      (h.laps.filter (fun l => lapStateIsEmpty l.condition)).length := by
    unfold greensOf
    calc ((h.laps.reverse.filter (fun l => lapStateIsEmpty l.condition)).take 5).length
        ≤ (h.laps.reverse.filter (fun l => lapStateIsEmpty l.condition)).length := by
          rw [List.length_take]; omega
      _ = (h.laps.filter (fun l => lapStateIsEmpty l.condition)).length := by
          rw [List.filter_reverse, List.length_reverse]
  have hc : (greenFold h).1 = 0 + (greensOf h).length :=
    foldl_count_rate Rate.addLap (greensOf h) 0 Rate.default
  simp only [recentGreen]
  rw [if_pos ⟨hdef, by omega⟩]

/-- C3 (witness: with no recorded laps and a default present, the default
is returned). -/
theorem claim3_witness : recentGreen hW3 = hW3.def_green :=
  claim3_default_wins_below_two hW3 (by simp [hW3]) (by simp [hW3])

/-! ### Claim C9 -/

/-- C9: when History::strat builds a request and no yellow rate could be
derived (the yellow fold counted zero qualifying laps and there is no
historical yellow default), the request's yellow rate is synthesized as
{fuel: green.fuel / 3, time: green.time · 4}. -/
theorem claim9_synthesized_yellow (h : History) (fl : ℚ) (e : EndsWith)
    (r : StratRequest) (hreq : stratRequestOf h fl e = some r)
    (hcount : (yellowFold h).2.2 = 0) (hdefy : h.def_yellow = none) :
    r.yellow = ⟨r.green.fuel / 3, tsMul r.green.time 4⟩ := by
  unfold stratRequestOf at hreq
  rcases Option.map_eq_some'.mp hreq with ⟨green, hg, hr⟩
  have hry : recentYellow h = none := by
    unfold recentYellow
    rw [if_pos hcount]
    exact hdefy
  subst hr
  simp only [hry, Option.getD_none]

/-- C9 (witness at hW9: two green laps, no yellow laps, no defaults). -/
theorem claim9_witness : rW9.yellow = ⟨rW9.green.fuel / 3, tsMul rW9.green.time 4⟩ :=
  claim9_synthesized_yellow hW9 10 (.Laps 5) rW9
    (by norm_num [stratRequestOf, recentGreen, greenFold, greensOf, recentYellow,
      yellowFold, trailingYellow, tsDiv, tsMul, lapStateIsEmpty, lapIsYellow,
      Rate.default, Rate.addLap, hW9, cfgT, rW9])
    (by norm_num [yellowFold, lapIsYellow, hW9, Rate.default]) rfl

/-! ### Claim C10 -/

/-- Dropping all but the last `n` elements is reversing, taking `n` and
reversing back. -/
theorem drop_eq_reverse_take {α : Type} (l : List α) (n : ℕ) :
    l.drop (l.length - n) = (l.reverse.take n).reverse := by
  rw [List.reverse_take, List.reverse_reverse, List.length_reverse]

/-- C10: in every request History::strat builds, yellow_togo is
max(0, 3 − k) when k > 0 and 0 when k = 0, where k = trailingYellow is
exactly the length of the longest all-yellow suffix of the recorded laps:
the k-lap suffix is all yellow, and no longer suffix is. -/
theorem claim10_yellow_togo (h : History) (fl : ℚ) (e : EndsWith)
    (r : StratRequest) (hreq : stratRequestOf h fl e = some r) :
    (r.yellow_togo =
      if 0 < (trailingYellow h.laps : ℤ) then max 0 (3 - (trailingYellow h.laps : ℤ))
      else 0) ∧
    allYellowSuffix h.laps (trailingYellow h.laps) ∧
    (∀ m, allYellowSuffix h.laps m → m ≤ trailingYellow h.laps) := by
  refine ⟨?_, ⟨?_, ?_⟩, ?_⟩
  · unfold stratRequestOf at hreq
    rcases Option.map_eq_some'.mp hreq with ⟨green, _, hr⟩
    subst hr
    rfl
  · calc trailingYellow h.laps ≤ h.laps.reverse.length :=
        (List.takeWhile_sublist lapIsYellow).length_le
      _ = h.laps.length := List.length_reverse _
  · intro lap hlap
    rw [drop_eq_reverse_take, List.mem_reverse] at hlap
    unfold trailingYellow at hlap
    rw [take_length_takeWhile] at hlap
    exact mem_takeWhile_sat lapIsYellow _ lap hlap
  · rintro m ⟨hm, hall⟩
    refine le_length_takeWhile_of_all lapIsYellow h.laps.reverse m
      (by rw [List.length_reverse]; exact hm) ?_
    intro lap hlap
    exact hall lap (by rw [drop_eq_reverse_take, List.mem_reverse]; exact hlap)

/-- C10 (witness at hW10: one trailing yellow lap gives yellow_togo 2). -/
theorem claim10_witness :
    (rW10.yellow_togo =
      if 0 < (trailingYellow hW10.laps : ℤ) then max 0 (3 - (trailingYellow hW10.laps : ℤ))
      else 0) ∧
    allYellowSuffix hW10.laps (trailingYellow hW10.laps) ∧
    (∀ m, allYellowSuffix hW10.laps m → m ≤ trailingYellow hW10.laps) :=
  claim10_yellow_togo hW10 5 (.Laps 5) rW10
    (by norm_num [stratRequestOf, recentGreen, greenFold, greensOf, recentYellow,
      yellowFold, trailingYellow, tsDiv, tsMul, lapStateIsEmpty, lapIsYellow,
      Rate.default, Rate.addLap, hW10, cfgT, rW10])

/-! ### Claim C8 -/

/-- C8 (counterexample): on a racing frame with session_time_remain = −5
and unlimited laps, the code returns Time(0 s) (it clamps with
`tm.max(0.0)`), while the spec's mapping says `Time(tm)`, which denotes no
TimeSpan for a negative tm; the mapping of the spec and the code differ on
this frame. -/
theorem claim8_counterexample :
    endsSpec fC8 = none ∧ ends fC8 = .Time ⟨0⟩ ∧ endsSpec fC8 ≠ some (ends fC8) := by
  refine ⟨?_, ?_, ?_⟩ <;>
    norm_num [endsSpec, ends, endsPair, fC8, IRSDK_UNLIMITED_TIME,
      IRSDK_UNLIMITED_LAPS, fromSecsChecked, fromSecsF64]
  simp

/-- C8 (amended): ends() maps the chosen (time, laps) pair exactly as the
spec says once the remaining time is clamped at zero in the branches that
build a duration: both sentinels → Time(max(0, 30·60 − session_time));
only laps unlimited → Time(max(0, tm)); only time unlimited → Laps(laps);
otherwise LapsOrTime(laps, max(0, tm)); with the pair being the session
totals in Warmup/ParadeLaps and the remaining counts otherwise. -/
theorem claim8_ends_mapping_clamped (f : IRacingTelemetryRow) :
    ends f = endsSpecClamped f := by
  unfold ends endsSpecClamped
  by_cases h1 : (endsPair f).1 = IRSDK_UNLIMITED_TIME <;>
    by_cases h2 : (endsPair f).2 = IRSDK_UNLIMITED_LAPS <;>
      simp [h1, h2, max_comm]

/-! ### Claim C6 -/

/-- Decimal digit characters: recognized by isDigit, not whitespace, and
digitVal inverts them. -/
theorem digitChar_facts :
    ∀ k, k < 10 → (Char.ofNat (48 + k)).isDigit = true ∧
      isWsChar (Char.ofNat (48 + k)) = false ∧ digitVal (Char.ofNat (48 + k)) = k := by
  decide

/-- The two characters `{:02}` produces for a value below 100. -/
theorem pad2_data :
    ∀ n, n < 100 →
      (pad2 n).data = [Char.ofNat (48 + n / 10), Char.ofNat (48 + n % 10)] := by
  decide

/-- The single character plain formatting produces for a value below 10. -/
theorem toString_data_lt_ten :
    ∀ n, n < 10 → (toString n).data = [Char.ofNat (48 + n)] := by
  decide

/-- The two characters plain formatting produces for a two-digit value. -/
theorem toString_data_two_digits :
    ∀ n, 10 ≤ n → n < 100 →
      (toString n).data = [Char.ofNat (48 + n / 10), Char.ofNat (48 + n % 10)] := by
  decide

theorem dropWhile_eq_self_of_all {α : Type} (p : α → Bool) (l : List α)
    (h : ∀ c ∈ l, p c = false) : l.dropWhile p = l := by
  cases l with
  | nil => rfl
  | cons a t =>
    rw [List.dropWhile_cons, h a (List.mem_cons_self a t)]
    simp

/-- Stripping whitespace from a string without any is the identity. -/
theorem stripWs_eq_self (cs : List Char) (h : ∀ c ∈ cs, isWsChar c = false) :
    stripWs cs = cs := by
  unfold stripWs
  rw [dropWhile_eq_self_of_all _ _ h,
    dropWhile_eq_self_of_all _ _ (fun c hc => h c (List.mem_reverse.mp hc)),
    List.reverse_reverse]

/-- Parsing the canonical `MM:SS` character shape. -/
theorem parse_mmss (m s : ℕ) (hm : m < 100) (hs : s < 100) :
    timespanFromChars [Char.ofNat (48 + m / 10), Char.ofNat (48 + m % 10), ':',
      Char.ofNat (48 + s / 10), Char.ofNat (48 + s % 10)] =
      some ⟨(m * 60 + s) * 1000000000⟩ := by
  have d1 := digitChar_facts (m / 10) (by omega)
  have d2 := digitChar_facts (m % 10) (by omega)
  have d3 := digitChar_facts (s / 10) (by omega)
  have d4 := digitChar_facts (s % 10) (by omega)
  unfold timespanFromChars
  rw [stripWs_eq_self _ (by
    intro c hc
    simp only [List.mem_cons, List.not_mem_nil, or_false] at hc
    rcases hc with rfl | rfl | rfl | rfl | rfl
    · exact d1.2.1
    · exact d2.2.1
    · rfl
    · exact d3.2.1
    · exact d4.2.1)]
  simp only [d1.1, d2.1, d3.1, d4.1, Bool.and_self, if_true, d1.2.2, d2.2.2,
    d3.2.2, d4.2.2, Option.some.injEq, TimeSpan.mk.injEq]
  ring_nf
  omega

/-- Parsing the canonical `H:MM:SS` character shape (one-digit hours). -/
theorem parse_hmmss (h m s : ℕ) (hh : h < 10) (hm : m < 100) (hs : s < 100) :
    timespanFromChars [Char.ofNat (48 + h), ':',
      Char.ofNat (48 + m / 10), Char.ofNat (48 + m % 10), ':',
      Char.ofNat (48 + s / 10), Char.ofNat (48 + s % 10)] =
      some ⟨(h * 3600 + m * 60 + s) * 1000000000⟩ := by
  have d0 := digitChar_facts h (by omega)
  have d1 := digitChar_facts (m / 10) (by omega)
  have d2 := digitChar_facts (m % 10) (by omega)
  have d3 := digitChar_facts (s / 10) (by omega)
  have d4 := digitChar_facts (s % 10) (by omega)
  unfold timespanFromChars
  rw [stripWs_eq_self _ (by
    intro c hc
    simp only [List.mem_cons, List.not_mem_nil, or_false] at hc
    rcases hc with rfl | rfl | rfl | rfl | rfl | rfl | rfl
    · exact d0.2.1
    · rfl
    · exact d1.2.1
    · exact d2.2.1
    · rfl
    · exact d3.2.1
    · exact d4.2.1)]
  simp only [d0.1, d1.1, d2.1, d3.1, d4.1, Bool.and_self, if_true, d0.2.2,
    d1.2.2, d2.2.2, d3.2.2, d4.2.2, Option.some.injEq, TimeSpan.mk.injEq]
  ring_nf
  omega

/-- Parsing the canonical `HH:MM:SS` character shape (two-digit hours). -/
theorem parse_hhmmss (h m s : ℕ) (hh : h < 100) (hm : m < 100) (hs : s < 100) :
    timespanFromChars [Char.ofNat (48 + h / 10), Char.ofNat (48 + h % 10), ':',
      Char.ofNat (48 + m / 10), Char.ofNat (48 + m % 10), ':',
      Char.ofNat (48 + s / 10), Char.ofNat (48 + s % 10)] =
      some ⟨(h * 3600 + m * 60 + s) * 1000000000⟩ := by
  have d0 := digitChar_facts (h / 10) (by omega)
  have d00 := digitChar_facts (h % 10) (by omega)
  have d1 := digitChar_facts (m / 10) (by omega)
  have d2 := digitChar_facts (m % 10) (by omega)
  have d3 := digitChar_facts (s / 10) (by omega)
  have d4 := digitChar_facts (s % 10) (by omega)
  unfold timespanFromChars
  rw [stripWs_eq_self _ (by
    intro c hc
    simp only [List.mem_cons, List.not_mem_nil, or_false] at hc
    rcases hc with rfl | rfl | rfl | rfl | rfl | rfl | rfl | rfl
    · exact d0.2.1
    · exact d00.2.1
    · rfl
    · exact d1.2.1
    · exact d2.2.1
    · rfl
    · exact d3.2.1
    · exact d4.2.1)]
  simp only [d0.1, d00.1, d1.1, d2.1, d3.1, d4.1, Bool.and_self, if_true,
    d0.2.2, d00.2.2, d1.2.2, d2.2.2, d3.2.2, d4.2.2, Option.some.injEq,
    TimeSpan.mk.injEq]
  ring_nf
  omega

/-- C6 (counterexample): the half-second TimeSpan (a duration under 100
hours) formats as "00:00", which parses back to zero, not to the original
value: Display truncates sub-second precision, so the round trip fails for
fractional durations. -/
theorem claim6_counterexample :
    (TimeSpan.mk 500000000).ns < 360000 * 1000000000 ∧
    timespanFromStr (timespanFmt ⟨500000000⟩) = some ⟨0⟩ ∧
    timespanFromStr (timespanFmt ⟨500000000⟩) ≠ some ⟨500000000⟩ := by
  refine ⟨by norm_num, by decide, by decide⟩

/-- C6 (amended): for every whole-second TimeSpan under 100 hours, parsing
the string produced by its Display formatting yields the original value. -/
theorem claim6_roundtrip_whole_seconds (t : TimeSpan)
    (hwhole : t.ns % 1000000000 = 0) (hlt : t.ns < 360000 * 1000000000) :
    timespanFromStr (timespanFmt t) = some t := by
  obtain ⟨ns⟩ := t
  simp only at hwhole hlt
  obtain ⟨sec, rfl⟩ : ∃ sec, ns = sec * 1000000000 :=
    ⟨ns / 1000000000, by omega⟩
  have hsec_lt : sec < 360000 := by omega
  have hcolon : (":" : String).data = [':'] := rfl
  unfold timespanFromStr timespanFmt
  simp only
  have hs : sec * 1000000000 / 1000000000 = sec := by omega
  rw [hs]
  by_cases hhr : 3600 * 1000000000 ≤ sec * 1000000000
  · rw [if_pos hhr]
    have h36 : 3600 ≤ sec := by omega
    have hm : sec % 3600 / 60 < 100 := by omega
    have hs2 : sec % 60 < 100 := by omega
    by_cases hh10 : sec / 3600 < 10
    · rw [show (toString (sec / 3600) ++ ":" ++ pad2 (sec % 3600 / 60) ++ ":" ++
          pad2 (sec % 60)).data =
          [Char.ofNat (48 + sec / 3600), ':',
            Char.ofNat (48 + sec % 3600 / 60 / 10), Char.ofNat (48 + sec % 3600 / 60 % 10),
            ':', Char.ofNat (48 + sec % 60 / 10), Char.ofNat (48 + sec % 60 % 10)] by
        simp [String.data_append, hcolon, toString_data_lt_ten (sec / 3600) hh10,
          pad2_data (sec % 3600 / 60) hm, pad2_data (sec % 60) hs2]]
      rw [parse_hmmss (sec / 3600) (sec % 3600 / 60) (sec % 60) hh10 hm hs2]
      simp only [Option.some.injEq, TimeSpan.mk.injEq]
      omega
    · have hh100 : sec / 3600 < 100 := by omega
      rw [show (toString (sec / 3600) ++ ":" ++ pad2 (sec % 3600 / 60) ++ ":" ++
          pad2 (sec % 60)).data =
          [Char.ofNat (48 + sec / 3600 / 10), Char.ofNat (48 + sec / 3600 % 10), ':',
            Char.ofNat (48 + sec % 3600 / 60 / 10), Char.ofNat (48 + sec % 3600 / 60 % 10),
            ':', Char.ofNat (48 + sec % 60 / 10), Char.ofNat (48 + sec % 60 % 10)] by
        simp [String.data_append, hcolon,
          toString_data_two_digits (sec / 3600) (by omega) hh100,
          pad2_data (sec % 3600 / 60) hm, pad2_data (sec % 60) hs2]]
      rw [parse_hhmmss (sec / 3600) (sec % 3600 / 60) (sec % 60) hh100 hm hs2]
      simp only [Option.some.injEq, TimeSpan.mk.injEq]
      omega
  · rw [if_neg hhr]
    have hm : sec / 60 < 100 := by omega
    have hs2 : sec % 60 < 100 := by omega
    rw [show (pad2 (sec / 60) ++ ":" ++ pad2 (sec % 60)).data =
        [Char.ofNat (48 + sec / 60 / 10), Char.ofNat (48 + sec / 60 % 10), ':',
          Char.ofNat (48 + sec % 60 / 10), Char.ofNat (48 + sec % 60 % 10)] by
      simp [String.data_append, hcolon, pad2_data (sec / 60) hm,
        pad2_data (sec % 60) hs2]]
    rw [parse_mmss (sec / 60) (sec % 60) hm hs2]
    simp only [Option.some.injEq, TimeSpan.mk.injEq]
    omega

/-- C6 (witness: 1:30:00, i.e. 5400 whole seconds, round-trips). -/
theorem claim6_witness :
    timespanFromStr (timespanFmt ⟨5400000000000⟩) = some ⟨5400000000000⟩ :=
  claim6_roundtrip_whole_seconds ⟨5400000000000⟩ (by norm_num) (by norm_num)

end NafCalc
